import Mathlib

/-!
Verification of the RivaBrowser HTTP stack (connection cache, URL parsing,
HTTP/1.1 response handling, HTTP/2 header construction) against its
natural-language specification.  The definitions below are a shallow
embedding of `riva/cache.py`, `riva/url.py` and `riva/http2.py`:
Python `OrderedDict` state becomes an ordered association list, wall-clock
time becomes an explicit `now : Nat` argument, and the socket liveness
probe becomes the `alive` field of a connection value (the probe's outcome
at the moment it is performed).
-/

set_option autoImplicit false

deriving instance DecidableEq for Except

namespace Riva

/-- Connection key `(host, port, scheme)`, as used by `ConnectionCache`
(`key = (host, port, scheme)` in `cache.py`). -/
abbrev ConnKey := String × Nat × String

/-- A pooled transport handle.  `id` identifies the underlying resource
(socket / HTTP2 session); `alive` is the outcome of the liveness probe
`_is_connection_alive` for this handle (socket zero-byte send, or HTTP/2
`h2_conn is not None and get_next_available_stream_id() is not None`). -/
structure Conn where
  id : Nat
  alive : Bool
deriving DecidableEq

/-- One pool entry: key, handle, and the `time.time()` timestamp recorded
at `store` time. -/
abbrev PoolEntry := ConnKey × Conn × Nat

/-- State of `ConnectionCache`: the ordered map `self.cache` (head = oldest
/ least-recently-used, matching `OrderedDict` with `move_to_end`), the ids
of handles that have been closed (`conn.close()` calls made by
`_remove_connection`), and the `CacheMetrics` counters.  The float metric
`avg_connection_lifetime` is omitted (floating point is out of scope); a
close that raises is not modelled (closing always succeeds here). -/
structure CacheState where
  timeout : Nat
  maxPoolSize : Nat
  enableMetrics : Bool
  pool : List PoolEntry
  closedIds : List Nat
  hits : Nat
  misses : Nat
  evictions : Nat
  sizeMetric : Nat
  totalConnections : Nat
  failedConnections : Nat
deriving DecidableEq

/-- `key in self.cache` on the ordered map. -/
def poolHasKey (pool : List PoolEntry) (k : ConnKey) : Bool :=
  pool.any (fun e => decide (e.1 = k))

/-- `self.cache[key]` lookup (first entry with the key). -/
def lookupKey : List PoolEntry → ConnKey → Option (Conn × Nat)
  | [], _ => none
  | e :: rest, k => if e.1 = k then some e.2 else lookupKey rest k

/-- `self.cache.pop(key, (None, None))`: remove the first entry with the
given key, returning it (if any) and the remaining pool. -/
def popKey : List PoolEntry → ConnKey → Option PoolEntry × List PoolEntry
  | [], _ => (none, [])
  | e :: rest, k =>
    if e.1 = k then (some e, rest)
    else
      let r := popKey rest k
      (r.1, e :: r.2)

/-- `self.cache.move_to_end(key)`: move the entry for `key` to the
most-recently-used end. -/
def moveToEnd (pool : List PoolEntry) (k : ConnKey) : List PoolEntry :=
  match popKey pool k with
  | (none, _) => pool
  | (some e, rest) => rest ++ [e]

/-- `ConnectionCache._remove_connection`: pop the entry and close its
handle (recorded in `closedIds`).  When the key is absent the state is
unchanged (Python's `pop(key, (None, None))` default). -/
def removeConnection (s : CacheState) (k : ConnKey) : CacheState :=
  match popKey s.pool k with
  | (none, _) => s
  | (some e, rest) => { s with pool := rest, closedIds := s.closedIds ++ [e.2.1.id] }

/-- `ConnectionCache._remove_oldest`: remove the least-recently-used entry
(head of the ordered map) and count an eviction. -/
def removeOldest (s : CacheState) : CacheState :=
  match s.pool with
  | [] => s
  | e :: _ =>
    let s' := removeConnection s e.1
    if s'.enableMetrics then { s' with evictions := s'.evictions + 1 } else s'

/-- The argument validation shared by `get` and `store`: empty host,
out-of-range port, or a scheme other than http/https raises `ValueError`
(represented by the returned message).  Ports are `Nat`, so Python's
`port <= 0` is `port = 0`. -/
def validateKey (k : ConnKey) : Option String :=
  if k.1 = "" then some "Invalid host"
  else if k.2.1 = 0 ∨ k.2.1 > 65535 then some "Invalid port"
  else if k.2.2 ≠ "http" ∧ k.2.2 ≠ "https" then some "Invalid scheme"
  else none

/-- First phase of `ConnectionCache.store`: `if key in self.cache:
self._remove_connection(key)` (duplicate replacement). -/
def storePhase1 (s : CacheState) (k : ConnKey) : CacheState :=
  if poolHasKey s.pool k then removeConnection s k else s

/-- Second phase of `ConnectionCache.store`: `if len(self.cache) >=
self.max_pool_size: self._remove_oldest()` — the state at the instant
after LRU eviction, before any insertion. -/
def storePhase2 (s : CacheState) (k : ConnKey) : CacheState :=
  let s1 := storePhase1 s k
  if s1.pool.length ≥ s1.maxPoolSize then removeOldest s1 else s1

/-- `ConnectionCache.store(host, port, scheme, conn)`.  Returns the Python
return value and the new state, or the `ValueError` message for an invalid
key (in which case the state is untouched). -/
def store (s : CacheState) (k : ConnKey) (c : Conn) (now : Nat) :
    Except String (Bool × CacheState) :=
  match validateKey k with
  | some msg => .error msg
  | none =>
    let s2 := storePhase2 s k
    if ¬ c.alive then
      .ok (false,
        if s2.enableMetrics
        then { s2 with failedConnections := s2.failedConnections + 1 }
        else s2)
    else
      let s3 := { s2 with pool := s2.pool ++ [(k, c, now)] }
      .ok (true,
        if s3.enableMetrics
        then { s3 with sizeMetric := s3.pool.length,
                       totalConnections := s3.totalConnections + 1 }
        else s3)

/-- `ConnectionCache.get(host, port, scheme)` at wall-clock time `now`.
Returns the Python return value (`Some conn` on a hit, `none` on a miss)
and the new state, or the `ValueError` message for an invalid key. -/
def get (s : CacheState) (k : ConnKey) (now : Nat) :
    Except String (Option Conn × CacheState) :=
  match validateKey k with
  | some msg => .error msg
  | none =>
    match lookupKey s.pool k with
    | some (c, ts) =>
      if now - ts < s.timeout ∧ c.alive then
        let s1 := { s with pool := moveToEnd s.pool k }
        .ok (some c, if s1.enableMetrics then { s1 with hits := s1.hits + 1 } else s1)
      else
        let s1 := removeConnection s k
        .ok (none,
          if s1.enableMetrics
          then { s1 with misses := s1.misses + 1,
                         failedConnections := s1.failedConnections + 1 }
          else s1)
    | none =>
      .ok (none, if s.enableMetrics then { s with misses := s.misses + 1 } else s)

/-- The loop body of `_cleanup_expired`: `self._remove_connection(key)`
followed by the metrics-guarded `self.metrics.evictions += 1`. -/
def sweepRemove (st : CacheState) (key : ConnKey) : CacheState :=
  let st' := removeConnection st key
  if st'.enableMetrics then { st' with evictions := st'.evictions + 1 } else st'

/-- One pass of the background sweeper `_cleanup_expired`: collect the keys
whose age exceeds `timeout`, then remove each (counting evictions). -/
def cleanupStep (s : CacheState) (now : Nat) : CacheState :=
  let expired := (s.pool.filter (fun e => decide (now - e.2.2 > s.timeout))).map (·.1)
  expired.foldl sweepRemove s

/-- One external operation on the cache. -/
inductive CacheOp where
  | opStore (k : ConnKey) (c : Conn) (now : Nat)
  | opGet (k : ConnKey) (now : Nat)
  | opCleanup (now : Nat)

/-- Apply one operation; a `ValueError` (invalid key) leaves the state
unchanged, as the Python raise happens before any mutation. -/
def applyOp (s : CacheState) : CacheOp → CacheState
  | .opStore k c now =>
    match store s k c now with
    | .ok r => r.2
    | .error _ => s
  | .opGet k now =>
    match get s k now with
    | .ok r => r.2
    | .error _ => s
  | .opCleanup now => cleanupStep s now

/-- Run a sequence of cache operations. -/
def runOps (s : CacheState) (ops : List CacheOp) : CacheState :=
  ops.foldl applyOp s

/-- A freshly constructed `ConnectionCache(timeout, max_pool_size,
enable_metrics)` (constructor rejects `timeout <= 0` and
`max_pool_size <= 0`; callers of this model supply positive values). -/
def mkCache (timeout maxPoolSize : Nat) (enableMetrics : Bool) : CacheState :=
  { timeout := timeout, maxPoolSize := maxPoolSize, enableMetrics := enableMetrics,
    pool := [], closedIds := [], hits := 0, misses := 0, evictions := 0,
    sizeMetric := 0, totalConnections := 0, failedConnections := 0 }

/-- Number of pool entries carrying key `k`. -/
def countKey (pool : List PoolEntry) (k : ConnKey) : Nat :=
  (pool.filter (fun e => decide (e.1 = k))).length

/-! ## URL model (`riva/url.py`)

Python strings are modelled as Lean `String`; `str.lower`/`str.casefold`
and `str.upper` are modelled for the ASCII range (all inputs handled by
the code — header names, schemes — are ASCII). -/

/-- Split at the first occurrence of `sep` (non-empty) in `l`, dropping the
separator; `none` when `sep` does not occur. -/
def splitOnceL (sep : List Char) : List Char → Option (List Char × List Char)
  | [] => if sep.isPrefixOf ([] : List Char) then some ([], []) else none
  | c :: rest =>
    if sep.isPrefixOf (c :: rest) then some ([], (c :: rest).drop sep.length)
    else
      match splitOnceL sep rest with
      | none => none
      | some (a, b) => some (c :: a, b)

/-- Python `int(s)` for a non-negative decimal literal: all characters are
digits (and there is at least one); other strings raise `ValueError`. -/
def digitsToNat : List Char → Nat → Option Nat
  | [], acc => some acc
  | c :: rest, acc =>
    if '0' ≤ c ∧ c ≤ '9' then digitsToNat rest (acc * 10 + (c.toNat - '0'.toNat))
    else none

/-- `int(s)` (non-negative decimal; see `digitsToNat`). -/
def pyToNat (s : String) : Option Nat :=
  match s.data with
  | [] => none
  | l => digitsToNat l 0

/-- Python `s.startswith(pre)`. -/
def pyStartsWith (s pre : String) : Bool :=
  pre.data.isPrefixOf s.data

/-- Python `s[n:]`. -/
def pyDrop (s : String) (n : Nat) : String :=
  String.mk (s.data.drop n)

/-- ASCII model of Python `str.lower` / `str.casefold` on one character. -/
def pyCharLower (c : Char) : Char :=
  if 'A' ≤ c ∧ c ≤ 'Z' then Char.ofNat (c.toNat + 32) else c

/-- ASCII model of Python `str.upper` on one character. -/
def pyCharUpper (c : Char) : Char :=
  if 'a' ≤ c ∧ c ≤ 'z' then Char.ofNat (c.toNat - 32) else c

/-- Python `s.lower()` / `s.casefold()` (ASCII). -/
def pyStrLower (s : String) : String :=
  String.mk (s.data.map pyCharLower)

/-- Python `s.upper()` (ASCII). -/
def pyStrUpper (s : String) : String :=
  String.mk (s.data.map pyCharUpper)

/-- Python `s.strip()`: remove leading and trailing whitespace. -/
def pyStrip (s : String) : String :=
  String.mk (((s.data.dropWhile Char.isWhitespace).reverse.dropWhile Char.isWhitespace).reverse)

/-- Python `s.split(sep, 1)` when `sep` occurs in `s`: the part before the
first occurrence and the remainder.  `none` when `sep` does not occur. -/
def splitOnce (sep s : String) : Option (String × String) :=
  match splitOnceL sep.data s.data with
  | none => none
  | some (a, b) => some (String.mk a, String.mk b)

/-- Python `sub in s` (substring containment). -/
def containsSub (s sub : String) : Bool :=
  (splitOnceL sub.data s.data).isSome

/-- Python `s.startswith(':')`. -/
def startsWithColon (s : String) : Bool :=
  match s.data with
  | [] => false
  | c :: _ => decide (c = ':')

/-- The exception classes of `url.py`: `URLParseError` and
`URLRequestError` (both subclasses of `URLError`), each carrying its
message.  These two constructors are the only URL error types the source
defines. -/
inductive URLErr where
  | urlParseError (msg : String)
  | urlRequestError (msg : String)
deriving DecidableEq

/-- The message carried by an error (`str(e)` in Python). -/
def URLErr.msg : URLErr → String
  | .urlParseError m => m
  | .urlRequestError m => m

/-- Whether an error is of class `URLParseError`. -/
def URLErr.isParse : URLErr → Bool
  | .urlParseError _ => true
  | .urlRequestError _ => false

/-- The state a `URL` object ends up with after `_parse_url`:
`scheme`, `host`, `port`, `path`, `auth` and the recursive `inner_url`
of a `view-source` URL (fields left at their `None` initialisation when
the relevant handler does not assign them). -/
inductive ParsedURL where
  | mk (scheme : Option String) (host : Option String) (port : Option Nat)
      (path : Option String) (auth : Option String) (inner : Option ParsedURL)

/-- `self.scheme`. -/
def ParsedURL.scheme : ParsedURL → Option String
  | .mk s _ _ _ _ _ => s

/-- `self.host`. -/
def ParsedURL.host : ParsedURL → Option String
  | .mk _ h _ _ _ _ => h

/-- `self.port`. -/
def ParsedURL.port : ParsedURL → Option Nat
  | .mk _ _ p _ _ _ => p

/-- `self.path`. -/
def ParsedURL.path : ParsedURL → Option String
  | .mk _ _ _ p _ _ => p

/-- `self.inner_url`. -/
def ParsedURL.inner : ParsedURL → Option ParsedURL
  | .mk _ _ _ _ _ i => i

/-- `URL._is_windows_path`: `'\\' in url or (len(url) > 1 and url[1] == ':')`. -/
def isWindowsPath (url : String) : Bool :=
  containsSub url "\\" || (url.length > 1 && decide (url.data.getD 1 ' ' = ':'))

/-- `URL.SCHEME_PORTS[scheme]` for `http`/`https`. -/
def schemeDefaultPort (scheme : String) : Option Nat :=
  if scheme = "http" then some 80
  else if scheme = "https" then some 443
  else none

/-- `URL._handle_file`: strip a `file://` prefix and any leading slashes,
otherwise take the string itself as the path. -/
def handleFileURL (url : String) : ParsedURL :=
  if pyStartsWith url "file://" then
    .mk (some "file") none none
      (some (String.mk ((pyDrop url 7).data.dropWhile (· = '/')))) none none
  else
    .mk (some "file") none none (some url) none none

/-- `URL._handle_http` applied to the part after `scheme://`: extracts
`user:pass@` auth, splits host[:port] from the path, validates the port
(`0 <= port <= 65535`, else `URLParseError`), and falls back to the
scheme's default port.  Python's `int(port)` is modelled as
`String.toNat?` (decimal digits). -/
def handleHttp (scheme url0 : String) :
    Except URLErr (String × Option Nat × String × Option String) :=
  let ar := match splitOnce "@" url0 with
    | some (a, rest) => (some a, rest)
    | none => (none, url0)
  let auth := ar.1
  let url1 := ar.2
  if url1.length < 3 then .error (.urlParseError "URL too short")
  else
    let url2 := if containsSub url1 "/" then url1 else url1 ++ "/"
    let hp := match splitOnce "/" url2 with
      | some (h, r) => (h, "/" ++ r)
      | none => (url2, "/")
    let host0 := hp.1
    let path := hp.2
    if containsSub host0 ":" then
      match splitOnce ":" host0 with
      | some (h, p) =>
        match pyToNat p with
        | none => .error (.urlParseError ("Invalid port number: " ++ p))
        | some n =>
          if n ≤ 65535 then .ok (h, some n, path, auth)
          else .error (.urlParseError ("Invalid port number: " ++ p))
      | none => .ok (host0, none, path, auth)
    else
      .ok (host0, schemeDefaultPort scheme, path, auth)

/-- `URL._handle_generic`: split off `scheme://`, reject schemes outside
`SCHEME_PORTS`, and dispatch to the http/file handlers.  For `data` and
`view-source` written with `://` no handler runs, leaving only `scheme`
assigned (as in the source). -/
def handleGeneric (url : String) : Except URLErr ParsedURL :=
  if containsSub url "://" then
    match splitOnce "://" url with
    | some (scheme, rest) =>
      if ¬ (scheme = "http" ∨ scheme = "https" ∨ scheme = "file" ∨
            scheme = "data" ∨ scheme = "view-source") then
        .error (.urlParseError ("Unsupported scheme: " ++ scheme))
      else if scheme = "http" ∨ scheme = "https" then
        match handleHttp scheme rest with
        | .ok (host, port, path, auth) =>
          .ok (.mk (some scheme) (some host) port (some path) auth none)
        | .error e => .error e
      else if scheme = "file" then
        .ok (handleFileURL rest)
      else
        .ok (.mk (some scheme) none none none none none)
    | none => .error (.urlParseError "unreachable")
  else
    .ok (handleFileURL url)

/-- The `except Exception` clause of `_parse_url`: any failure from the
dispatch body is re-raised as
`URLParseError("Failed to parse URL: " + str(e))`. -/
def wrapParse : Except URLErr ParsedURL → Except URLErr ParsedURL
  | .ok u => .ok u
  | .error e => .error (.urlParseError ("Failed to parse URL: " ++ e.msg))

/-- `URL._parse_url` with explicit recursion fuel for the `view-source`
recursion (`URL(inner_url)`).  Mirrors the dispatcher: the "URL too
short" check sits outside the `try`, every failure inside it is
re-wrapped by `wrapParse`, and a failing inner view-source URL is first
wrapped by `_handle_view_source`. -/
def parseURLF : Nat → String → Except URLErr ParsedURL
  | 0, _ => .error (.urlParseError "recursion limit")
  | fuel + 1, url =>
    if url.length < 3 then .error (.urlParseError "URL too short")
    else
      let res : Except URLErr ParsedURL :=
        if pyStartsWith url "view-source:" then
          match parseURLF fuel (pyDrop url 12) with
          | .ok inner => .ok (.mk (some "view-source") none none none none (some inner))
          | .error e =>
            .error (.urlParseError ("Invalid view-source inner URL: " ++ e.msg))
        else if pyStartsWith url "data:text/html," then
          match splitOnce "," url with
          | some (_, rest) => .ok (.mk (some "data") none none (some rest) none none)
          | none => .error (.urlParseError "Invalid data URL format")
        else if isWindowsPath url then
          .ok (handleFileURL url)
        else if ¬ containsSub url "://" then
          .error (.urlParseError "Invalid URL format: missing scheme")
        else
          handleGeneric url
      wrapParse res

/-- `URL(url)` parsing entry point (fuel large enough for any nesting of
`view-source:` prefixes, each of which consumes 12 characters). -/
def parseURL (url : String) : Except URLErr ParsedURL :=
  parseURLF (url.length + 1) url

/-- Field extraction helpers for stating concrete parse results. -/
def parseScheme (url : String) : Option String :=
  match parseURL url with
  | .ok u => u.scheme
  | .error _ => none

/-- Host of a successfully parsed URL. -/
def parseHost (url : String) : Option String :=
  match parseURL url with
  | .ok u => u.host
  | .error _ => none

/-- Port of a successfully parsed URL. -/
def parsePort (url : String) : Option Nat :=
  match parseURL url with
  | .ok u => u.port
  | .error _ => none

/-- Path of a successfully parsed URL. -/
def parsePath (url : String) : Option String :=
  match parseURL url with
  | .ok u => u.path
  | .error _ => none

/-- Scheme of a view-source URL's inner URL. -/
def parseInnerScheme (url : String) : Option String :=
  match parseURL url with
  | .ok u =>
    match u.inner with
    | some i => i.scheme
    | none => none
  | .error _ => none

/-- The `URLParseError` message produced for `url`, if parsing fails with
that class (`none` on success or on a `URLRequestError`). -/
def parseErrMsg (url : String) : Option String :=
  match parseURL url with
  | .error (.urlParseError m) => some m
  | _ => none

/-! ## HTTP/1.1 response processing (`URL._request_http`)

The byte stream returned by the server is modelled as a `List Char`
(`sock.makefile("rb", newline="\r\n")`); `readline()` splits exactly at
`"\r\n"` and keeps the terminator in the returned line, and
`read(n)`/`read()` take `n`/all remaining characters. -/

/-- `response.readline()` with `newline="\r\n"`: the line including its
`"\r\n"` terminator (or everything up to EOF when no terminator occurs),
and the remaining stream. -/
def readLineCRLF : List Char → List Char × List Char
  | [] => ([], [])
  | '\r' :: '\n' :: rest => (['\r', '\n'], rest)
  | c :: rest =>
    let r := readLineCRLF rest
    (c :: r.1, r.2)

/-- Split a character list at the first occurrence of `c` (the separator
is dropped); `none` when `c` does not occur — Python `split(c, 1)`
producing one part, so that a two-variable unpack raises `ValueError`. -/
def splitOnceCh (c : Char) : List Char → Option (List Char × List Char)
  | [] => none
  | x :: rest =>
    if x = c then some ([], rest)
    else
      match splitOnceCh c rest with
      | none => none
      | some (a, b) => some (x :: a, b)

/-- `statusline.split(" ", 2)` unpacked into
`(version, status, explanation)` plus `int(status)`: fewer than two
spaces or a non-numeric status raises
`URLRequestError("Invalid HTTP status line: ...")`. -/
def parseStatusLine (line : List Char) : Except URLErr (String × String × Nat × String) :=
  match splitOnceCh ' ' line with
  | none => .error (.urlRequestError ("Invalid HTTP status line: " ++ String.mk line))
  | some (v, rest) =>
    match splitOnceCh ' ' rest with
    | none => .error (.urlRequestError ("Invalid HTTP status line: " ++ String.mk line))
    | some (st, expl) =>
      match pyToNat (String.mk st) with
      | none => .error (.urlRequestError ("Invalid HTTP status line: " ++ String.mk line))
      | some code => .ok (String.mk v, String.mk st, code, String.mk expl)

/-- The header-parsing loop state: the `headers` dict (insertion-ordered,
last-write-wins), `content_length` and `connection_close`. -/
structure HeaderAcc where
  headers : List (String × String)
  contentLength : Option Nat
  connectionClose : Bool
deriving DecidableEq

/-- `headers[header] = value`: dict update (overwrite in place, else
append). -/
def setHeader : List (String × String) → String → String → List (String × String)
  | [], k, v => [(k, v)]
  | (k', v') :: rest, k, v =>
    if k' = k then (k, v) :: rest else (k', v') :: setHeader rest k v

/-- The header loop of `_request_http`: read lines until `"\r\n"`;
a line without `:` is skipped with a warning (`ValueError` on unpack);
header names are casefolded and values stripped; `content-length` is
parsed (a non-integer value is skipped by the same `except ValueError`,
after the dict was already updated); `connection: close` (value
lowercased) sets the close flag.  Returns the accumulated state and the
remaining stream; `none` models the source blocking forever when EOF is
reached before the blank line (readline then returns `""` endlessly). -/
def parseHeaders : Nat → List Char → HeaderAcc → Option (HeaderAcc × List Char)
  | 0, _, _ => none
  | _ + 1, [], _ => none
  | fuel + 1, stream, acc =>
    let lr := readLineCRLF stream
    if lr.1 = ['\r', '\n'] then some (acc, lr.2)
    else
      match splitOnceCh ':' lr.1 with
      | none => parseHeaders fuel lr.2 acc
      | some (h, v) =>
        let header := pyStrLower (String.mk h)
        let value := pyStrip (String.mk v)
        let hs := setHeader acc.headers header value
        if header = "content-length" then
          match pyToNat value with
          | some n => parseHeaders fuel lr.2 { acc with headers := hs, contentLength := some n }
          | none => parseHeaders fuel lr.2 { acc with headers := hs }
        else if header = "connection" ∧ pyStrLower value = "close" then
          parseHeaders fuel lr.2 { acc with headers := hs, connectionClose := true }
        else
          parseHeaders fuel lr.2 { acc with headers := hs }

/-- What `_request_http` does with the socket after the body is read:
`sock.close()` or `connection_cache.store(host, port, scheme, sock)`. -/
inductive ConnAction where
  | closeSock
  | poolSock (k : ConnKey)
deriving DecidableEq

/-- The `HTTPResponse` record built by `_request_http`, plus whether the
`status >= 400` warning was surfaced (`logging.error` + printed). -/
structure HTTPRespM where
  statusCode : Nat
  statusMessage : String
  headers : List (String × String)
  body : String
  httpVersion : String
  warned : Bool
deriving DecidableEq

/-- The response-processing path of `URL._request_http` (after the
request bytes were sent): parse the status line, fail hard on
`status >= 500` (the `>= 400` case only surfaces a warning), parse
headers, read the body (`read(content_length)` when known, else
`read()` to EOF forcing `connection_close = True`), and either close
the socket or hand it back to the pool under the same
`(host, port, scheme)` key. -/
def processResponse (host : String) (port : Nat) (scheme : String)
    (stream : List Char) : Except URLErr (HTTPRespM × ConnAction) :=
  let sl := readLineCRLF stream
  match parseStatusLine sl.1 with
  | .error e => .error e
  | .ok (version, statusStr, code, explanation) =>
    if 500 ≤ code then
      .error (.urlRequestError ("HTTP Error " ++ statusStr ++ ": " ++ pyStrip explanation))
    else
      match parseHeaders (sl.2.length + 1) sl.2 ⟨[], none, false⟩ with
      | none => .error (.urlRequestError "EOF while reading headers")
      | some (acc, rest) =>
        let bodyCC : List Char × Bool :=
          match acc.contentLength with
          | some n => (rest.take n, acc.connectionClose)
          | none => (rest, true)
        .ok ({ statusCode := code, statusMessage := pyStrip explanation,
               headers := acc.headers, body := String.mk bodyCC.1,
               httpVersion := version, warned := decide (400 ≤ code) },
             if bodyCC.2 then .closeSock else .poolSock (host, port, scheme))

/-! ## HTTP/2 request headers (`HTTP2Connection.send_request`) -/

/-- The header list `send_request` hands to
`h2_conn.send_headers(stream_id, request_headers)`: the four pseudo-
headers built by the transport, followed by the caller's headers with
lowercased names, any caller header whose name starts with `:`
dropped. -/
def sendRequestHeaders (host method path : String)
    (headers : List (String × String)) : List (String × String) :=
  [(":method", pyStrUpper method), (":path", path),
   (":authority", host), (":scheme", "https")]
  ++ (headers.filter (fun kv => ¬ startsWithColon kv.1)).map
      (fun kv => (pyStrLower kv.1, kv.2))

/-! ## Pool lemmas -/

theorem popKey_snd_sublist (l : List PoolEntry) (k : ConnKey) :
    (popKey l k).2.Sublist l := by
  induction l with
  | nil => simp [popKey]
  | cons e rest ih =>
    simp only [popKey]
    split
    · exact List.sublist_cons_self e rest
    · exact List.Sublist.cons₂ e ih

theorem popKey_snd_length_le (l : List PoolEntry) (k : ConnKey) :
    (popKey l k).2.length ≤ l.length :=
  (popKey_snd_sublist l k).length_le

theorem popKey_fst_none (l : List PoolEntry) (k : ConnKey)
    (h : (popKey l k).1 = none) : (popKey l k).2 = l := by
  induction l with
  | nil => simp [popKey]
  | cons e rest ih =>
    simp only [popKey] at h ⊢
    split at h
    · simp at h
    · rename_i hne
      simp only [popKey, if_neg hne]
      simp only [popKey, if_neg hne] at h
      rw [ih h]

theorem popKey_fst_some (l : List PoolEntry) (k : ConnKey) (e : PoolEntry)
    (h : (popKey l k).1 = some e) :
    e.1 = k ∧ e ∈ l ∧ (popKey l k).2.length + 1 = l.length := by
  induction l with
  | nil => simp [popKey] at h
  | cons x rest ih =>
    simp only [popKey] at h ⊢
    split at h
    · rename_i hx
      simp only [Option.some.injEq] at h
      subst h
      simp [hx]
    · rename_i hne
      simp only [popKey, if_neg hne] at ih ⊢
      obtain ⟨h1, h2, h3⟩ := ih h
      refine ⟨h1, .tail _ h2, ?_⟩
      simp [h3]

theorem poolHasKey_iff (l : List PoolEntry) (k : ConnKey) :
    poolHasKey l k = true ↔ ∃ e ∈ l, e.1 = k := by
  simp [poolHasKey]

theorem poolHasKey_of_popKey_some (l : List PoolEntry) (k : ConnKey)
    (e : PoolEntry) (h : (popKey l k).1 = some e) : poolHasKey l k = true := by
  obtain ⟨h1, h2, _⟩ := popKey_fst_some l k e h
  exact (poolHasKey_iff l k).2 ⟨e, h2, h1⟩

theorem popKey_fst_isSome (l : List PoolEntry) (k : ConnKey)
    (h : poolHasKey l k = true) : (popKey l k).1.isSome := by
  induction l with
  | nil => simp [poolHasKey] at h
  | cons e rest ih =>
    simp only [popKey]
    split
    · simp
    · rename_i hne
      apply ih
      simp only [poolHasKey, List.any_cons, Bool.or_eq_true] at h
      rcases h with h1 | h2
      · exact absurd (of_decide_eq_true h1) hne
      · exact h2

theorem lookupKey_popKey (l : List PoolEntry) (k : ConnKey) (c : Conn) (ts : Nat)
    (h : lookupKey l k = some (c, ts)) : (popKey l k).1 = some (k, c, ts) := by
  induction l with
  | nil => simp [lookupKey] at h
  | cons e rest ih =>
    simp only [lookupKey] at h
    simp only [popKey]
    split
    · rename_i he
      split at h
      · simp only [Option.some.injEq] at h
        rw [← he, ← h]
      · rename_i hne
        exact absurd he hne
    · rename_i hne
      split at h
      · rename_i he
        exact absurd he hne
      · exact ih h

theorem popKey_not_has_of_nodup (l : List PoolEntry) (k : ConnKey)
    (hnd : (l.map Prod.fst).Nodup) : poolHasKey (popKey l k).2 k = false := by
  induction l with
  | nil => simp [popKey, poolHasKey]
  | cons e rest ih =>
    simp only [List.map_cons, List.nodup_cons] at hnd
    simp only [popKey]
    split
    · rename_i he
      rw [Bool.eq_false_iff]
      intro hcon
      obtain ⟨x, hx, hxk⟩ := (poolHasKey_iff rest k).1 hcon
      have hk : k ∈ rest.map Prod.fst := List.mem_map.2 ⟨x, hx, hxk⟩
      exact hnd.1 (by rw [he]; exact hk)
    · rename_i hne
      simp only [poolHasKey, List.any_cons]
      rw [Bool.or_eq_false_iff]
      constructor
      · simpa using hne
      · exact ih hnd.2

/-! ## State-level lemmas -/

/-- The configuration fields, constant across all cache operations. -/
def cfg (s : CacheState) : Nat × Nat × Bool :=
  (s.timeout, s.maxPoolSize, s.enableMetrics)

theorem removeConnection_pool (s : CacheState) (k : ConnKey) :
    (removeConnection s k).pool = (popKey s.pool k).2 := by
  unfold removeConnection
  rcases h : popKey s.pool k with ⟨o, r⟩
  cases o with
  | none =>
    have h1 : (popKey s.pool k).1 = none := by rw [h]
    have h2 := popKey_fst_none _ _ h1
    rw [h] at h2
    simp only at h2 ⊢
    exact h2.symm
  | some e => rfl

theorem cfg_removeConnection (s : CacheState) (k : ConnKey) :
    cfg (removeConnection s k) = cfg s := by
  unfold removeConnection
  rcases h : popKey s.pool k with ⟨o, r⟩
  cases o <;> rfl

theorem removeConnection_closedIds_mono (s : CacheState) (k : ConnKey) (x : Nat)
    (hx : x ∈ s.closedIds) : x ∈ (removeConnection s k).closedIds := by
  unfold removeConnection
  rcases h : popKey s.pool k with ⟨o, r⟩
  cases o with
  | none => exact hx
  | some e => simp [hx]

theorem removeConnection_closes (s : CacheState) (k : ConnKey) (c : Conn) (ts : Nat)
    (h : lookupKey s.pool k = some (c, ts)) :
    c.id ∈ (removeConnection s k).closedIds := by
  have hpk := lookupKey_popKey s.pool k c ts h
  unfold removeConnection
  rcases hp : popKey s.pool k with ⟨o, r⟩
  rw [hp] at hpk
  simp only at hpk
  subst hpk
  simp

theorem removeConnection_pool_sublist (s : CacheState) (k : ConnKey) :
    (removeConnection s k).pool.Sublist s.pool := by
  rw [removeConnection_pool]
  exact popKey_snd_sublist _ _

theorem sweepRemove_pool (st : CacheState) (key : ConnKey) :
    (sweepRemove st key).pool = (removeConnection st key).pool := by
  unfold sweepRemove
  simp only
  split <;> rfl

theorem cfg_sweepRemove (st : CacheState) (key : ConnKey) :
    cfg (sweepRemove st key) = cfg st := by
  unfold sweepRemove
  simp only
  split <;> exact cfg_removeConnection st key

theorem sweepRemove_closedIds_mono (st : CacheState) (key : ConnKey) (x : Nat)
    (hx : x ∈ st.closedIds) : x ∈ (sweepRemove st key).closedIds := by
  unfold sweepRemove
  simp only
  split <;> exact removeConnection_closedIds_mono st key x hx

theorem removeOldest_nil (s : CacheState) (hp : s.pool = []) :
    removeOldest s = s := by
  unfold removeOldest
  rw [hp]

theorem removeOldest_cons (s : CacheState) (e : PoolEntry) (rest : List PoolEntry)
    (hp : s.pool = e :: rest) : removeOldest s = sweepRemove s e.1 := by
  unfold removeOldest sweepRemove
  rw [hp]

theorem removeOldest_pool_sublist (s : CacheState) :
    (removeOldest s).pool.Sublist s.pool := by
  by_cases hnil : s.pool = []
  · rw [removeOldest_nil s hnil]
  · obtain ⟨e, rest, hp⟩ := List.exists_cons_of_ne_nil hnil
    rw [removeOldest_cons s e rest hp, sweepRemove_pool]
    exact removeConnection_pool_sublist s e.1

theorem cfg_removeOldest (s : CacheState) : cfg (removeOldest s) = cfg s := by
  by_cases hnil : s.pool = []
  · rw [removeOldest_nil s hnil]
  · obtain ⟨e, rest, hp⟩ := List.exists_cons_of_ne_nil hnil
    rw [removeOldest_cons s e rest hp]
    exact cfg_sweepRemove s e.1

theorem removeOldest_length (s : CacheState) (h : s.pool ≠ []) :
    (removeOldest s).pool.length + 1 = s.pool.length := by
  obtain ⟨e, rest, hp⟩ := List.exists_cons_of_ne_nil h
  rw [removeOldest_cons s e rest hp, sweepRemove_pool, removeConnection_pool, hp]
  simp [popKey]

theorem removeOldest_closedIds_mono (s : CacheState) (x : Nat)
    (hx : x ∈ s.closedIds) : x ∈ (removeOldest s).closedIds := by
  by_cases hnil : s.pool = []
  · rw [removeOldest_nil s hnil]; exact hx
  · obtain ⟨e, rest, hp⟩ := List.exists_cons_of_ne_nil hnil
    rw [removeOldest_cons s e rest hp]
    exact sweepRemove_closedIds_mono s e.1 x hx

theorem storePhase1_pool_sublist (s : CacheState) (k : ConnKey) :
    (storePhase1 s k).pool.Sublist s.pool := by
  unfold storePhase1
  split
  · exact removeConnection_pool_sublist s k
  · exact List.Sublist.refl _

theorem cfg_storePhase1 (s : CacheState) (k : ConnKey) :
    cfg (storePhase1 s k) = cfg s := by
  unfold storePhase1
  split
  · exact cfg_removeConnection s k
  · rfl

theorem storePhase1_closedIds_mono (s : CacheState) (k : ConnKey) (x : Nat)
    (hx : x ∈ s.closedIds) : x ∈ (storePhase1 s k).closedIds := by
  unfold storePhase1
  split
  · exact removeConnection_closedIds_mono s k x hx
  · exact hx

theorem storePhase2_pool_sublist (s : CacheState) (k : ConnKey) :
    (storePhase2 s k).pool.Sublist s.pool := by
  unfold storePhase2
  simp only
  split
  · exact (removeOldest_pool_sublist _).trans (storePhase1_pool_sublist s k)
  · exact storePhase1_pool_sublist s k

theorem cfg_storePhase2 (s : CacheState) (k : ConnKey) :
    cfg (storePhase2 s k) = cfg s := by
  unfold storePhase2
  simp only
  split
  · exact (cfg_removeOldest _).trans (cfg_storePhase1 s k)
  · exact cfg_storePhase1 s k

theorem storePhase2_closedIds_mono (s : CacheState) (k : ConnKey) (x : Nat)
    (hx : x ∈ s.closedIds) : x ∈ (storePhase2 s k).closedIds := by
  unfold storePhase2
  simp only
  split
  · exact removeOldest_closedIds_mono _ x (storePhase1_closedIds_mono s k x hx)
  · exact storePhase1_closedIds_mono s k x hx

theorem maxPoolSize_storePhase2 (s : CacheState) (k : ConnKey) :
    (storePhase2 s k).maxPoolSize = s.maxPoolSize :=
  congrArg (fun p => p.2.1) (cfg_storePhase2 s k)

theorem metrics_storePhase2 (s : CacheState) (k : ConnKey) :
    (storePhase2 s k).enableMetrics = s.enableMetrics :=
  congrArg (fun p => p.2.2) (cfg_storePhase2 s k)

/-- After LRU eviction and before insertion, the pool is strictly below
the bound: the bound cannot be exceeded even transiently by the
subsequent insertion. -/
theorem storePhase2_length_lt (s : CacheState) (k : ConnKey)
    (hmax : 1 ≤ s.maxPoolSize) (hle : s.pool.length ≤ s.maxPoolSize) :
    (storePhase2 s k).pool.length < s.maxPoolSize := by
  unfold storePhase2
  simp only
  have hcfg : (storePhase1 s k).maxPoolSize = s.maxPoolSize :=
    congrArg (fun p => p.2.1) (cfg_storePhase1 s k)
  have hlen1 : (storePhase1 s k).pool.length ≤ s.maxPoolSize :=
    le_trans (storePhase1_pool_sublist s k).length_le hle
  split
  · rename_i hge
    rw [hcfg] at hge
    have hne : (storePhase1 s k).pool ≠ [] := by
      intro hnil
      rw [hnil] at hge
      simp at hge
      omega
    have hro := removeOldest_length _ hne
    omega
  · rename_i hlt
    rw [hcfg] at hlt
    omega

/-- When the pool is at capacity and the stored key is not already
present, `store` evicts exactly the head of the ordered map — the
least-recently-used entry. -/
theorem storePhase2_evicts_head (s : CacheState) (k : ConnKey)
    (hmax : 1 ≤ s.maxPoolSize)
    (hfull : s.maxPoolSize ≤ s.pool.length)
    (habs : poolHasKey s.pool k = false) :
    (storePhase2 s k).pool = s.pool.tail := by
  have h1 : storePhase1 s k = s := by
    unfold storePhase1
    rw [habs]
    simp
  have hne : s.pool ≠ [] := by
    intro hnil
    rw [hnil] at hfull
    simp at hfull
    omega
  obtain ⟨e, rest, hp⟩ := List.exists_cons_of_ne_nil hne
  unfold storePhase2
  simp only
  rw [h1, if_pos hfull]
  rw [removeOldest_cons s e rest hp, sweepRemove_pool, removeConnection_pool, hp]
  simp [popKey]

theorem moveToEnd_length (l : List PoolEntry) (k : ConnKey) :
    (moveToEnd l k).length = l.length := by
  unfold moveToEnd
  rcases h : popKey l k with ⟨o, r⟩
  cases o with
  | none => rfl
  | some e =>
    have h1 : (popKey l k).1 = some e := by rw [h]
    obtain ⟨_, _, hlen⟩ := popKey_fst_some l k e h1
    rw [h] at hlen
    simp only at hlen ⊢
    simp
    omega

/-- The state produced by a `store` whose liveness probe failed. -/
def storeResultDead (s : CacheState) (k : ConnKey) : CacheState :=
  let s2 := storePhase2 s k
  if s2.enableMetrics then { s2 with failedConnections := s2.failedConnections + 1 } else s2

/-- The state produced by a successful `store`. -/
def storeResultAlive (s : CacheState) (k : ConnKey) (c : Conn) (now : Nat) : CacheState :=
  let s2 := storePhase2 s k
  let s3 := { s2 with pool := s2.pool ++ [(k, c, now)] }
  if s3.enableMetrics
  then { s3 with sizeMetric := s3.pool.length, totalConnections := s3.totalConnections + 1 }
  else s3

theorem store_invalid_eq (s : CacheState) (k : ConnKey) (c : Conn) (now : Nat)
    (m : String) (hv : validateKey k = some m) : store s k c now = .error m := by
  unfold store
  rw [hv]

theorem store_dead_eq (s : CacheState) (k : ConnKey) (c : Conn) (now : Nat)
    (hv : validateKey k = none) (hc : c.alive = false) :
    store s k c now = .ok (false, storeResultDead s k) := by
  unfold store storeResultDead
  rw [hv]
  simp [hc]

theorem store_alive_eq (s : CacheState) (k : ConnKey) (c : Conn) (now : Nat)
    (hv : validateKey k = none) (hc : c.alive = true) :
    store s k c now = .ok (true, storeResultAlive s k c now) := by
  unfold store storeResultAlive
  rw [hv]
  simp [hc]

theorem storeResultDead_pool (s : CacheState) (k : ConnKey) :
    (storeResultDead s k).pool = (storePhase2 s k).pool := by
  unfold storeResultDead
  simp only
  split <;> rfl

theorem cfg_storeResultDead (s : CacheState) (k : ConnKey) :
    cfg (storeResultDead s k) = cfg s := by
  unfold storeResultDead
  simp only
  split <;> exact cfg_storePhase2 s k

theorem storeResultAlive_pool (s : CacheState) (k : ConnKey) (c : Conn) (now : Nat) :
    (storeResultAlive s k c now).pool = (storePhase2 s k).pool ++ [(k, c, now)] := by
  unfold storeResultAlive
  simp only
  split <;> rfl

theorem cfg_storeResultAlive (s : CacheState) (k : ConnKey) (c : Conn) (now : Nat) :
    cfg (storeResultAlive s k c now) = cfg s := by
  unfold storeResultAlive
  simp only
  split <;> exact cfg_storePhase2 s k

/-- The state produced by a `get` hit. -/
def getResultHit (s : CacheState) (k : ConnKey) : CacheState :=
  let s1 := { s with pool := moveToEnd s.pool k }
  if s1.enableMetrics then { s1 with hits := s1.hits + 1 } else s1

/-- The state produced by a `get` that found a stale or dead entry. -/
def getResultStale (s : CacheState) (k : ConnKey) : CacheState :=
  let s1 := removeConnection s k
  if s1.enableMetrics
  then { s1 with misses := s1.misses + 1, failedConnections := s1.failedConnections + 1 }
  else s1

/-- The state produced by a `get` whose key was absent. -/
def getResultMiss (s : CacheState) : CacheState :=
  if s.enableMetrics then { s with misses := s.misses + 1 } else s

theorem get_invalid_eq (s : CacheState) (k : ConnKey) (now : Nat) (m : String)
    (hv : validateKey k = some m) : get s k now = .error m := by
  unfold get
  rw [hv]

theorem get_hit_eq (s : CacheState) (k : ConnKey) (now : Nat) (c : Conn) (ts : Nat)
    (hv : validateKey k = none) (hl : lookupKey s.pool k = some (c, ts))
    (hfresh : now - ts < s.timeout ∧ c.alive = true) :
    get s k now = .ok (some c, getResultHit s k) := by
  unfold get getResultHit
  rw [hv, hl]
  simp [hfresh.1, hfresh.2]

theorem get_stale_eq (s : CacheState) (k : ConnKey) (now : Nat) (c : Conn) (ts : Nat)
    (hv : validateKey k = none) (hl : lookupKey s.pool k = some (c, ts))
    (hstale : ¬ (now - ts < s.timeout ∧ c.alive = true)) :
    get s k now = .ok (none, getResultStale s k) := by
  unfold get getResultStale
  rw [hv, hl]
  simp only
  rw [if_neg]
  intro hcon
  exact hstale ⟨hcon.1, hcon.2⟩

theorem get_miss_eq (s : CacheState) (k : ConnKey) (now : Nat)
    (hv : validateKey k = none) (hl : lookupKey s.pool k = none) :
    get s k now = .ok (none, getResultMiss s) := by
  unfold get getResultMiss
  rw [hv, hl]

theorem getResultHit_pool (s : CacheState) (k : ConnKey) :
    (getResultHit s k).pool = moveToEnd s.pool k := by
  unfold getResultHit
  simp only
  split <;> rfl

theorem cfg_getResultHit (s : CacheState) (k : ConnKey) :
    cfg (getResultHit s k) = cfg s := by
  unfold getResultHit
  simp only
  split <;> rfl

theorem getResultStale_pool (s : CacheState) (k : ConnKey) :
    (getResultStale s k).pool = (removeConnection s k).pool := by
  unfold getResultStale
  simp only
  split <;> rfl

theorem getResultStale_closedIds (s : CacheState) (k : ConnKey) :
    (getResultStale s k).closedIds = (removeConnection s k).closedIds := by
  unfold getResultStale
  simp only
  split <;> rfl

theorem cfg_getResultStale (s : CacheState) (k : ConnKey) :
    cfg (getResultStale s k) = cfg s := by
  unfold getResultStale
  simp only
  split <;> exact cfg_removeConnection s k

theorem getResultMiss_pool (s : CacheState) : (getResultMiss s).pool = s.pool := by
  unfold getResultMiss
  split <;> rfl

theorem cfg_getResultMiss (s : CacheState) : cfg (getResultMiss s) = cfg s := by
  unfold getResultMiss
  split <;> rfl

theorem foldl_sweepRemove_pool_sublist (keys : List ConnKey) (s : CacheState) :
    ((keys.foldl sweepRemove s).pool).Sublist s.pool := by
  induction keys generalizing s with
  | nil => exact List.Sublist.refl _
  | cons key rest ih =>
    simp only [List.foldl_cons]
    refine (ih (sweepRemove s key)).trans ?_
    rw [sweepRemove_pool]
    exact removeConnection_pool_sublist s key

theorem cfg_foldl_sweepRemove (keys : List ConnKey) (s : CacheState) :
    cfg (keys.foldl sweepRemove s) = cfg s := by
  induction keys generalizing s with
  | nil => rfl
  | cons key rest ih =>
    simp only [List.foldl_cons]
    exact (ih (sweepRemove s key)).trans (cfg_sweepRemove s key)

theorem cleanupStep_pool_sublist (s : CacheState) (now : Nat) :
    (cleanupStep s now).pool.Sublist s.pool := by
  unfold cleanupStep
  exact foldl_sweepRemove_pool_sublist _ s

theorem cfg_cleanupStep (s : CacheState) (now : Nat) :
    cfg (cleanupStep s now) = cfg s := by
  unfold cleanupStep
  exact cfg_foldl_sweepRemove _ s

theorem cfg_applyOp (s : CacheState) (op : CacheOp) : cfg (applyOp s op) = cfg s := by
  cases op with
  | opStore k c now =>
    simp only [applyOp]
    cases hv : validateKey k with
    | some m => rw [store_invalid_eq s k c now m hv]
    | none =>
      by_cases hc : c.alive
      · rw [store_alive_eq s k c now hv hc]
        exact cfg_storeResultAlive s k c now
      · rw [store_dead_eq s k c now hv (Bool.not_eq_true _ ▸ hc)]
        exact cfg_storeResultDead s k
  | opGet k now =>
    simp only [applyOp]
    cases hv : validateKey k with
    | some m => rw [get_invalid_eq s k now m hv]
    | none =>
      cases hl : lookupKey s.pool k with
      | some p =>
        by_cases hfresh : now - p.2 < s.timeout ∧ p.1.alive = true
        · rw [get_hit_eq s k now p.1 p.2 hv hl hfresh]
          exact cfg_getResultHit s k
        · rw [get_stale_eq s k now p.1 p.2 hv hl hfresh]
          exact cfg_getResultStale s k
      | none =>
        rw [get_miss_eq s k now hv hl]
        exact cfg_getResultMiss s
  | opCleanup now => exact cfg_cleanupStep s now

theorem applyOp_pool_length (s : CacheState) (op : CacheOp)
    (hmax : 1 ≤ s.maxPoolSize) (hle : s.pool.length ≤ s.maxPoolSize) :
    (applyOp s op).pool.length ≤ s.maxPoolSize := by
  cases op with
  | opStore k c now =>
    simp only [applyOp]
    cases hv : validateKey k with
    | some m =>
      rw [store_invalid_eq s k c now m hv]
      exact hle
    | none =>
      by_cases hc : c.alive
      · rw [store_alive_eq s k c now hv hc]
        simp only
        rw [storeResultAlive_pool]
        have := storePhase2_length_lt s k hmax hle
        simp only [List.length_append, List.length_cons, List.length_nil]
        omega
      · rw [store_dead_eq s k c now hv (Bool.not_eq_true _ ▸ hc)]
        simp only
        rw [storeResultDead_pool]
        exact le_trans (storePhase2_pool_sublist s k).length_le hle
  | opGet k now =>
    simp only [applyOp]
    cases hv : validateKey k with
    | some m =>
      rw [get_invalid_eq s k now m hv]
      exact hle
    | none =>
      cases hl : lookupKey s.pool k with
      | some p =>
        by_cases hfresh : now - p.2 < s.timeout ∧ p.1.alive = true
        · rw [get_hit_eq s k now p.1 p.2 hv hl hfresh]
          simp only
          rw [getResultHit_pool, moveToEnd_length]
          exact hle
        · rw [get_stale_eq s k now p.1 p.2 hv hl hfresh]
          simp only
          rw [getResultStale_pool]
          exact le_trans (removeConnection_pool_sublist s k).length_le hle
      | none =>
        rw [get_miss_eq s k now hv hl]
        simp only
        rw [getResultMiss_pool]
        exact hle
  | opCleanup now =>
    exact le_trans (cleanupStep_pool_sublist s now).length_le hle

theorem cfg_runOps (s : CacheState) (ops : List CacheOp) :
    cfg (runOps s ops) = cfg s := by
  induction ops generalizing s with
  | nil => rfl
  | cons op rest ih =>
    unfold runOps at ih ⊢
    simp only [List.foldl_cons]
    exact (ih (applyOp s op)).trans (cfg_applyOp s op)

theorem runOps_maxPoolSize (s : CacheState) (ops : List CacheOp) :
    (runOps s ops).maxPoolSize = s.maxPoolSize :=
  congrArg (fun p => p.2.1) (cfg_runOps s ops)

theorem runOps_pool_length (s : CacheState) (ops : List CacheOp)
    (hmax : 1 ≤ s.maxPoolSize) (hle : s.pool.length ≤ s.maxPoolSize) :
    (runOps s ops).pool.length ≤ s.maxPoolSize := by
  induction ops generalizing s with
  | nil => exact hle
  | cons op rest ih =>
    unfold runOps at ih ⊢
    simp only [List.foldl_cons]
    have hcfg := cfg_applyOp s op
    have hmax' : 1 ≤ (applyOp s op).maxPoolSize := by
      have := congrArg (fun p => p.2.1) hcfg
      simp only [cfg] at this
      omega
    have hle' : (applyOp s op).pool.length ≤ (applyOp s op).maxPoolSize := by
      have h1 := applyOp_pool_length s op hmax hle
      have := congrArg (fun p => p.2.1) hcfg
      simp only [cfg] at this
      omega
    have := ih (applyOp s op) hmax' hle'
    have h2 := congrArg (fun p => p.2.1) hcfg
    simp only [cfg] at h2
    omega

/-! ## Counter-preservation and key-uniqueness lemmas -/

theorem removeConnection_counters (s : CacheState) (k : ConnKey) :
    (removeConnection s k).hits = s.hits ∧ (removeConnection s k).misses = s.misses ∧
    (removeConnection s k).failedConnections = s.failedConnections ∧
    (removeConnection s k).totalConnections = s.totalConnections := by
  unfold removeConnection
  rcases popKey s.pool k with ⟨o, r⟩
  cases o <;> exact ⟨rfl, rfl, rfl, rfl⟩

theorem failed_sweepRemove (st : CacheState) (key : ConnKey) :
    (sweepRemove st key).failedConnections = st.failedConnections := by
  unfold sweepRemove
  simp only
  split <;> exact (removeConnection_counters st key).2.2.1

theorem failed_removeOldest (s : CacheState) :
    (removeOldest s).failedConnections = s.failedConnections := by
  by_cases hnil : s.pool = []
  · rw [removeOldest_nil s hnil]
  · obtain ⟨e, rest, hp⟩ := List.exists_cons_of_ne_nil hnil
    rw [removeOldest_cons s e rest hp]
    exact failed_sweepRemove s e.1

theorem failed_storePhase1 (s : CacheState) (k : ConnKey) :
    (storePhase1 s k).failedConnections = s.failedConnections := by
  unfold storePhase1
  split
  · exact (removeConnection_counters s k).2.2.1
  · rfl

theorem failed_storePhase2 (s : CacheState) (k : ConnKey) :
    (storePhase2 s k).failedConnections = s.failedConnections := by
  unfold storePhase2
  simp only
  split
  · exact (failed_removeOldest _).trans (failed_storePhase1 s k)
  · exact failed_storePhase1 s k

theorem storeResultDead_failed (s : CacheState) (k : ConnKey)
    (hm : s.enableMetrics = true) :
    (storeResultDead s k).failedConnections = s.failedConnections + 1 := by
  unfold storeResultDead
  simp only
  rw [if_pos ((metrics_storePhase2 s k).trans hm)]
  simp [failed_storePhase2 s k]

theorem storeResultDead_closedIds (s : CacheState) (k : ConnKey) :
    (storeResultDead s k).closedIds = (storePhase2 s k).closedIds := by
  unfold storeResultDead
  simp only
  split <;> rfl

theorem storeResultAlive_closedIds (s : CacheState) (k : ConnKey) (c : Conn) (now : Nat) :
    (storeResultAlive s k c now).closedIds = (storePhase2 s k).closedIds := by
  unfold storeResultAlive
  simp only
  split <;> rfl

/-- `self.cache` never holds two entries with the same key (dict model). -/
def nodupKeys (s : CacheState) : Prop :=
  (s.pool.map Prod.fst).Nodup

theorem nodup_of_sublist {l' l : List PoolEntry} (h : l'.Sublist l)
    (hnd : (l.map Prod.fst).Nodup) : (l'.map Prod.fst).Nodup :=
  hnd.sublist (h.map Prod.fst)

theorem poolHasKey_mono {l' l : List PoolEntry} (k : ConnKey) (h : l'.Sublist l)
    (hfalse : poolHasKey l k = false) : poolHasKey l' k = false := by
  rw [Bool.eq_false_iff] at hfalse ⊢
  intro hcon
  obtain ⟨e, he, hek⟩ := (poolHasKey_iff l' k).1 hcon
  exact hfalse ((poolHasKey_iff l k).2 ⟨e, h.mem he, hek⟩)

theorem lookup_some_has (l : List PoolEntry) (k : ConnKey) (c : Conn) (ts : Nat)
    (h : lookupKey l k = some (c, ts)) : poolHasKey l k = true :=
  poolHasKey_of_popKey_some l k _ (lookupKey_popKey l k c ts h)

theorem storePhase1_not_has (s : CacheState) (k : ConnKey) (hnd : nodupKeys s) :
    poolHasKey (storePhase1 s k).pool k = false := by
  unfold storePhase1
  split
  · rw [removeConnection_pool]
    exact popKey_not_has_of_nodup s.pool k hnd
  · rename_i h
    exact Bool.not_eq_true _ ▸ h

theorem storePhase2_not_has (s : CacheState) (k : ConnKey) (hnd : nodupKeys s) :
    poolHasKey (storePhase2 s k).pool k = false := by
  unfold storePhase2
  simp only
  split
  · exact poolHasKey_mono k (removeOldest_pool_sublist _) (storePhase1_not_has s k hnd)
  · exact storePhase1_not_has s k hnd

theorem countKey_eq_zero (l : List PoolEntry) (k : ConnKey)
    (habs : poolHasKey l k = false) : countKey l k = 0 := by
  unfold countKey
  rw [List.length_eq_zero, List.filter_eq_nil_iff]
  intro e he
  rw [Bool.eq_false_iff] at habs
  simp only [decide_eq_true_eq]
  intro hek
  exact habs ((poolHasKey_iff l k).2 ⟨e, he, hek⟩)

theorem countKey_le_one_of_nodup (l : List PoolEntry) (k : ConnKey)
    (hnd : (l.map Prod.fst).Nodup) : countKey l k ≤ 1 := by
  induction l with
  | nil => simp [countKey]
  | cons e rest ih =>
    simp only [List.map_cons, List.nodup_cons] at hnd
    unfold countKey
    simp only [List.filter_cons]
    split
    · rename_i hek
      simp only [decide_eq_true_eq] at hek
      have hz : countKey rest k = 0 := by
        apply countKey_eq_zero
        rw [Bool.eq_false_iff]
        intro hcon
        obtain ⟨x, hx, hxk⟩ := (poolHasKey_iff rest k).1 hcon
        exact hnd.1 (by rw [hek]; exact List.mem_map.2 ⟨x, hx, hxk⟩)
      unfold countKey at hz
      simp [hz]
    · exact ih hnd.2

theorem nodupKeys_append_new (l : List PoolEntry) (e : PoolEntry)
    (hnd : (l.map Prod.fst).Nodup) (habs : poolHasKey l e.1 = false) :
    ((l ++ [e]).map Prod.fst).Nodup := by
  rw [List.map_append, List.nodup_append]
  refine ⟨hnd, List.nodup_singleton _, ?_⟩
  intro a ha hb
  simp only [List.map_cons, List.map_nil, List.mem_singleton] at hb
  subst hb
  obtain ⟨x, hx, hxk⟩ := List.mem_map.1 ha
  rw [Bool.eq_false_iff] at habs
  exact habs ((poolHasKey_iff l e.1).2 ⟨x, hx, hxk⟩)

theorem moveToEnd_nodup (l : List PoolEntry) (k : ConnKey)
    (hnd : (l.map Prod.fst).Nodup) : ((moveToEnd l k).map Prod.fst).Nodup := by
  unfold moveToEnd
  rcases h : popKey l k with ⟨o, r⟩
  cases o with
  | none => exact hnd
  | some e =>
    have h1 : (popKey l k).1 = some e := by rw [h]
    obtain ⟨hek, _, _⟩ := popKey_fst_some l k e h1
    have hr : r = (popKey l k).2 := by rw [h]
    have hsub : r.Sublist l := hr ▸ popKey_snd_sublist l k
    have hrnd := nodup_of_sublist hsub hnd
    have habs : poolHasKey r k = false := hr ▸ popKey_not_has_of_nodup l k hnd
    exact nodupKeys_append_new r e hrnd (by rw [hek]; exact habs)

theorem nodupKeys_applyOp (s : CacheState) (op : CacheOp) (hnd : nodupKeys s) :
    nodupKeys (applyOp s op) := by
  cases op with
  | opStore k c now =>
    simp only [applyOp]
    cases hv : validateKey k with
    | some m =>
      rw [store_invalid_eq s k c now m hv]
      exact hnd
    | none =>
      by_cases hc : c.alive
      · rw [store_alive_eq s k c now hv hc]
        simp only
        unfold nodupKeys
        rw [storeResultAlive_pool]
        exact nodupKeys_append_new _ _
          (nodup_of_sublist (storePhase2_pool_sublist s k) hnd)
          (storePhase2_not_has s k hnd)
      · rw [store_dead_eq s k c now hv (Bool.not_eq_true _ ▸ hc)]
        simp only
        unfold nodupKeys
        rw [storeResultDead_pool]
        exact nodup_of_sublist (storePhase2_pool_sublist s k) hnd
  | opGet k now =>
    simp only [applyOp]
    cases hv : validateKey k with
    | some m =>
      rw [get_invalid_eq s k now m hv]
      exact hnd
    | none =>
      cases hl : lookupKey s.pool k with
      | some p =>
        by_cases hfresh : now - p.2 < s.timeout ∧ p.1.alive = true
        · rw [get_hit_eq s k now p.1 p.2 hv hl hfresh]
          simp only
          unfold nodupKeys
          rw [getResultHit_pool]
          exact moveToEnd_nodup s.pool k hnd
        · rw [get_stale_eq s k now p.1 p.2 hv hl hfresh]
          simp only
          unfold nodupKeys
          rw [getResultStale_pool]
          exact nodup_of_sublist (removeConnection_pool_sublist s k) hnd
      | none =>
        rw [get_miss_eq s k now hv hl]
        simp only
        unfold nodupKeys
        rw [getResultMiss_pool]
        exact hnd
  | opCleanup now =>
    exact nodup_of_sublist (cleanupStep_pool_sublist s now) hnd

theorem nodupKeys_runOps (s : CacheState) (ops : List CacheOp) (hnd : nodupKeys s) :
    nodupKeys (runOps s ops) := by
  induction ops generalizing s with
  | nil => exact hnd
  | cons op rest ih =>
    unfold runOps at ih ⊢
    simp only [List.foldl_cons]
    exact ih (applyOp s op) (nodupKeys_applyOp s op hnd)

theorem storePhase2_closedIds_mono1 (s : CacheState) (k : ConnKey) (x : Nat)
    (hx : x ∈ (storePhase1 s k).closedIds) : x ∈ (storePhase2 s k).closedIds := by
  unfold storePhase2
  simp only
  split
  · exact removeOldest_closedIds_mono _ x hx
  · exact hx

theorem storePhase1_closes (s : CacheState) (k : ConnKey) (c : Conn) (ts : Nat)
    (hl : lookupKey s.pool k = some (c, ts)) :
    c.id ∈ (storePhase1 s k).closedIds := by
  unfold storePhase1
  rw [if_pos (lookup_some_has s.pool k c ts hl)]
  exact removeConnection_closes s k c ts hl

/-! ## Example states for witnesses and counterexamples -/

/-- A fresh `ConnectionCache(30, 2, enable_metrics=True)`. -/
def exCache : CacheState := mkCache 30 2 true

/-- A small workload of stores and a get. -/
def exOps : List CacheOp :=
  [CacheOp.opStore ("a.com", 80, "http") ⟨0, true⟩ 0,
   CacheOp.opStore ("b.com", 80, "http") ⟨1, true⟩ 1,
   CacheOp.opStore ("c.com", 80, "http") ⟨2, true⟩ 2,
   CacheOp.opGet ("b.com", 80, "http") 3]

/-- A cache of capacity 1 holding one live entry. -/
def fullPoolState : CacheState :=
  { timeout := 30, maxPoolSize := 1, enableMetrics := true,
    pool := [(("a.com", 80, "http"), ⟨0, true⟩, 0)], closedIds := [],
    hits := 0, misses := 0, evictions := 0, sizeMetric := 1,
    totalConnections := 1, failedConnections := 0 }

/-- A cache holding one entry stored at time 0 with timeout 10. -/
def staleState : CacheState :=
  { timeout := 10, maxPoolSize := 2, enableMetrics := true,
    pool := [(("a.com", 80, "http"), ⟨7, true⟩, 0)], closedIds := [],
    hits := 0, misses := 0, evictions := 0, sizeMetric := 1,
    totalConnections := 1, failedConnections := 0 }

/-- A cache with spare capacity holding one live entry for `a.com`. -/
def rekeyState : CacheState :=
  { timeout := 30, maxPoolSize := 5, enableMetrics := true,
    pool := [(("a.com", 80, "http"), ⟨0, true⟩, 0)], closedIds := [],
    hits := 0, misses := 0, evictions := 0, sizeMetric := 1,
    totalConnections := 1, failedConnections := 0 }

/-! ## Claim theorems: connection cache -/

/-- C1: for every sequence of cache operations on a `ConnectionCache`
constructed with `max_pool_size > 0`, the pool size stays at most
`max_pool_size` after each call; inside `store`, at the instant after
eviction and before insertion the pool is strictly below the bound (so the
bound is never exceeded even transiently), and when the pool is at
capacity with a fresh key the entry evicted is exactly the head of the
ordered map — the least-recently-used entry — before the new entry is
inserted. -/
theorem cache_pool_bound_lru (s : CacheState) (ops : List CacheOp) (k : ConnKey)
    (hmax : 1 ≤ s.maxPoolSize) (hinit : s.pool.length ≤ s.maxPoolSize) :
    (runOps s ops).pool.length ≤ s.maxPoolSize
    ∧ (storePhase2 (runOps s ops) k).pool.length < s.maxPoolSize
    ∧ (s.maxPoolSize ≤ (runOps s ops).pool.length →
        poolHasKey (runOps s ops).pool k = false →
        (storePhase2 (runOps s ops) k).pool = ((runOps s ops).pool).tail) := by
  have hcfg := runOps_maxPoolSize s ops
  have h1 := runOps_pool_length s ops hmax hinit
  refine ⟨h1, ?_, ?_⟩
  · have h2 := storePhase2_length_lt (runOps s ops) k (by omega) (by omega)
    omega
  · intro hfull habs
    exact storePhase2_evicts_head (runOps s ops) k (by omega) (by omega) habs

theorem cache_pool_bound_lru_witness :
    1 ≤ exCache.maxPoolSize ∧ (runOps exCache exOps).pool.length ≤ exCache.maxPoolSize :=
  ⟨by decide,
   (cache_pool_bound_lru exCache exOps ("z.com", 80, "http") (by decide) (by decide)).1⟩

/-- C2 counterexample: a `store` whose probe fails, issued while the pool
is at capacity with a different key, returns false and increments
`failed_connections` by 1 — but the pool size drops from 1 to 0, because
`store` evicts the LRU entry *before* probing the incoming handle.  The
claim's "the pool size is unchanged from before the call" is false. -/
theorem cache_dead_store_size_change :
    fullPoolState.pool.length = 1
    ∧ (store fullPoolState ("b.com", 80, "http") ⟨1, false⟩ 5).toOption.map
        (fun r => (r.1, r.2.pool.length, r.2.failedConnections)) =
      some (false, 0, 1) := by
  decide

/-- C2 (amended): a `store` whose handle fails the liveness probe returns
false, increments `failed_connections` by exactly 1 and does not store
the handle (the resulting pool is a sublist of the old one — nothing is
added); the pool size is unchanged only when the key was not already
present and the pool was below capacity, since the duplicate removal and
the LRU eviction happen before the probe. -/
theorem cache_dead_store_rejected (s : CacheState) (k : ConnKey) (c : Conn) (now : Nat)
    (hv : validateKey k = none) (hc : c.alive = false) (hm : s.enableMetrics = true) :
    store s k c now = .ok (false, storeResultDead s k)
    ∧ (storeResultDead s k).failedConnections = s.failedConnections + 1
    ∧ (storeResultDead s k).pool.Sublist s.pool
    ∧ (poolHasKey s.pool k = false → s.pool.length < s.maxPoolSize →
        (storeResultDead s k).pool = s.pool) := by
  refine ⟨store_dead_eq s k c now hv hc, storeResultDead_failed s k hm, ?_, ?_⟩
  · rw [storeResultDead_pool]
    exact storePhase2_pool_sublist s k
  · intro habs hlt
    rw [storeResultDead_pool]
    have h1 : storePhase1 s k = s := by
      unfold storePhase1
      rw [habs]
      simp
    unfold storePhase2
    simp only
    rw [h1, if_neg (by omega : ¬ s.pool.length ≥ s.maxPoolSize)]

theorem cache_dead_store_rejected_witness :
    store (mkCache 30 2 true) ("a.com", 80, "http") ⟨5, false⟩ 0 =
      .ok (false, storeResultDead (mkCache 30 2 true) ("a.com", 80, "http"))
    ∧ (storeResultDead (mkCache 30 2 true) ("a.com", 80, "http")).failedConnections =
        (mkCache 30 2 true).failedConnections + 1 :=
  ⟨(cache_dead_store_rejected (mkCache 30 2 true) ("a.com", 80, "http") ⟨5, false⟩ 0
      (by decide) (by decide) (by decide)).1,
   (cache_dead_store_rejected (mkCache 30 2 true) ("a.com", 80, "http") ⟨5, false⟩ 0
      (by decide) (by decide) (by decide)).2.1⟩

/-- C3: `get` returns a handle only when an entry for the key exists, its
age is under the timeout and the probe succeeds; when an entry exists but
is expired or dead, the entry is removed from the pool and its handle
closed before `get` returns none. -/
theorem cache_get_spec (s : CacheState) (k : ConnKey) (now : Nat)
    (hv : validateKey k = none) (hnd : nodupKeys s) :
    (∀ c s', get s k now = .ok (some c, s') →
        ∃ ts, lookupKey s.pool k = some (c, ts) ∧ now - ts < s.timeout ∧ c.alive = true)
    ∧ (∀ c ts, lookupKey s.pool k = some (c, ts) →
        now - ts < s.timeout ∧ c.alive = true →
        get s k now = .ok (some c, getResultHit s k))
    ∧ (∀ c ts, lookupKey s.pool k = some (c, ts) →
        ¬ (now - ts < s.timeout ∧ c.alive = true) →
        get s k now = .ok (none, getResultStale s k)
        ∧ poolHasKey (getResultStale s k).pool k = false
        ∧ c.id ∈ (getResultStale s k).closedIds) := by
  refine ⟨?_, ?_, ?_⟩
  · intro c s' hget
    cases hl : lookupKey s.pool k with
    | none =>
      rw [get_miss_eq s k now hv hl] at hget
      simp at hget
    | some p =>
      obtain ⟨c0, ts0⟩ := p
      by_cases hfresh : now - ts0 < s.timeout ∧ c0.alive = true
      · rw [get_hit_eq s k now c0 ts0 hv hl hfresh] at hget
        simp only [Except.ok.injEq, Prod.mk.injEq, Option.some.injEq] at hget
        obtain ⟨hc, _⟩ := hget
        subst hc
        exact ⟨ts0, rfl, hfresh⟩
      · rw [get_stale_eq s k now c0 ts0 hv hl hfresh] at hget
        simp at hget
  · intro c ts hl hfresh
    exact get_hit_eq s k now c ts hv hl hfresh
  · intro c ts hl hstale
    refine ⟨get_stale_eq s k now c ts hv hl hstale, ?_, ?_⟩
    · rw [getResultStale_pool, removeConnection_pool]
      exact popKey_not_has_of_nodup s.pool k hnd
    · rw [getResultStale_closedIds]
      exact removeConnection_closes s k c ts hl

theorem cache_get_spec_witness :
    get staleState ("a.com", 80, "http") 50 =
      .ok (none, getResultStale staleState ("a.com", 80, "http"))
    ∧ poolHasKey (getResultStale staleState ("a.com", 80, "http")).pool
        ("a.com", 80, "http") = false
    ∧ (7 : Nat) ∈ (getResultStale staleState ("a.com", 80, "http")).closedIds :=
  (cache_get_spec staleState ("a.com", 80, "http") 50 (by decide)
      (by unfold nodupKeys; decide)).2.2
    ⟨7, true⟩ 0 (by decide) (by decide)

/-- C4 counterexample: storing a *dead* second handle under a key already
present closes and removes the old entry but stores nothing, so zero
entries for the key remain — refuting "exactly one entry for k remains"
for this store call (the old handle is closed: its id 0 appears in the
closed list). -/
theorem cache_double_store_zero_entries :
    (store rekeyState ("a.com", 80, "http") ⟨1, false⟩ 5).toOption.map
      (fun r => (countKey r.2.pool ("a.com", 80, "http"), r.2.closedIds)) =
      some (0, [0]) := by
  decide

/-- C4 (amended): at most one entry per key exists at any time (over any
operation sequence from a duplicate-free state); storing a second handle
under a key already present first closes the previously stored handle,
and then: if the new handle is alive it replaces the old one, leaving
exactly one entry for the key; if the new handle is dead nothing is
stored and no entry for the key remains.  The old handle is never
silently overwritten without being closed. -/
theorem cache_single_entry_per_key (s : CacheState) (ops : List CacheOp) (k : ConnKey)
    (cOld cNew : Conn) (ts now : Nat)
    (hnd : nodupKeys s) (hv : validateKey k = none) :
    countKey (runOps s ops).pool k ≤ 1
    ∧ (lookupKey s.pool k = some (cOld, ts) → cNew.alive = true →
        store s k cNew now = .ok (true, storeResultAlive s k cNew now)
        ∧ (storeResultAlive s k cNew now).pool.filter (fun e => decide (e.1 = k)) =
            [(k, cNew, now)]
        ∧ cOld.id ∈ (storeResultAlive s k cNew now).closedIds)
    ∧ (lookupKey s.pool k = some (cOld, ts) → cNew.alive = false →
        store s k cNew now = .ok (false, storeResultDead s k)
        ∧ countKey (storeResultDead s k).pool k = 0
        ∧ cOld.id ∈ (storeResultDead s k).closedIds) := by
  refine ⟨?_, ?_, ?_⟩
  · exact countKey_le_one_of_nodup _ k (nodupKeys_runOps s ops hnd)
  · intro hl hc
    refine ⟨store_alive_eq s k cNew now hv hc, ?_, ?_⟩
    · rw [storeResultAlive_pool, List.filter_append]
      have hz : (storePhase2 s k).pool.filter (fun e => decide (e.1 = k)) = [] := by
        rw [List.filter_eq_nil_iff]
        intro e he
        have habs := storePhase2_not_has s k hnd
        rw [Bool.eq_false_iff] at habs
        simp only [decide_eq_true_eq]
        intro hek
        exact habs ((poolHasKey_iff _ k).2 ⟨e, he, hek⟩)
      rw [hz]
      simp
    · rw [storeResultAlive_closedIds]
      exact storePhase2_closedIds_mono1 s k cOld.id (storePhase1_closes s k cOld ts hl)
  · intro hl hc
    refine ⟨store_dead_eq s k cNew now hv hc, ?_, ?_⟩
    · rw [storeResultDead_pool]
      exact countKey_eq_zero _ k (storePhase2_not_has s k hnd)
    · rw [storeResultDead_closedIds]
      exact storePhase2_closedIds_mono1 s k cOld.id (storePhase1_closes s k cOld ts hl)

theorem cache_single_entry_per_key_witness :
    countKey (runOps rekeyState []).pool ("a.com", 80, "http") ≤ 1
    ∧ (store rekeyState ("a.com", 80, "http") ⟨1, true⟩ 5 =
        .ok (true, storeResultAlive rekeyState ("a.com", 80, "http") ⟨1, true⟩ 5)
        ∧ (storeResultAlive rekeyState ("a.com", 80, "http") ⟨1, true⟩ 5).pool.filter
            (fun e => decide (e.1 = ("a.com", 80, "http"))) =
            [(("a.com", 80, "http"), ⟨1, true⟩, 5)]
        ∧ (0 : Nat) ∈ (storeResultAlive rekeyState ("a.com", 80, "http") ⟨1, true⟩ 5).closedIds) :=
  ⟨(cache_single_entry_per_key rekeyState [] ("a.com", 80, "http") ⟨0, true⟩ ⟨1, true⟩ 0 5
      (by unfold nodupKeys; decide) (by decide)).1,
   (cache_single_entry_per_key rekeyState [] ("a.com", 80, "http") ⟨0, true⟩ ⟨1, true⟩ 0 5
      (by unfold nodupKeys; decide) (by decide)).2.1 (by decide) (by decide)⟩

/-- C10: a `get` (with metrics enabled) that finds the key present but the
entry expired or its probe failing increments both `misses` and
`failed_connections` by exactly 1 — `failed_connections` counts stale
cache hits in addition to rejected stores. -/
theorem cache_stale_get_metrics (s : CacheState) (k : ConnKey) (now : Nat)
    (c : Conn) (ts : Nat) (hv : validateKey k = none) (hm : s.enableMetrics = true)
    (hl : lookupKey s.pool k = some (c, ts))
    (hstale : ¬ (now - ts < s.timeout ∧ c.alive = true)) :
    get s k now = .ok (none, getResultStale s k)
    ∧ (getResultStale s k).misses = s.misses + 1
    ∧ (getResultStale s k).failedConnections = s.failedConnections + 1 := by
  have hmet : (removeConnection s k).enableMetrics = s.enableMetrics :=
    congrArg (fun p => p.2.2) (cfg_removeConnection s k)
  refine ⟨get_stale_eq s k now c ts hv hl hstale, ?_, ?_⟩
  · unfold getResultStale
    simp only
    rw [if_pos (hmet.trans hm)]
    simp [(removeConnection_counters s k).2.1]
  · unfold getResultStale
    simp only
    rw [if_pos (hmet.trans hm)]
    simp [(removeConnection_counters s k).2.2.1]

theorem cache_stale_get_metrics_witness :
    get staleState ("a.com", 80, "http") 50 =
      .ok (none, getResultStale staleState ("a.com", 80, "http"))
    ∧ (getResultStale staleState ("a.com", 80, "http")).misses = staleState.misses + 1
    ∧ (getResultStale staleState ("a.com", 80, "http")).failedConnections =
        staleState.failedConnections + 1 := by
  exact cache_stale_get_metrics staleState ("a.com", 80, "http") 50 ⟨7, true⟩ 0
    (by decide) (by decide) (by decide) (by decide)

/-! ## URL / HTTP lemmas -/

/-- The error raised by parsing, when parsing fails. -/
def parseErrOnly (url : String) : Option URLErr :=
  match parseURL url with
  | .error e => some e
  | .ok _ => none

theorem wrapParse_error_isParse (x : Except URLErr ParsedURL) (e : URLErr)
    (h : wrapParse x = .error e) : e.isParse = true := by
  cases x with
  | ok u => simp [wrapParse] at h
  | error e' =>
    unfold wrapParse at h
    simp only [Except.error.injEq] at h
    subst h
    rfl

theorem parseURLF_error_isParse (fuel : Nat) (url : String) (e : URLErr)
    (h : parseURLF fuel url = .error e) : e.isParse = true := by
  cases fuel with
  | zero =>
    unfold parseURLF at h
    simp only [Except.error.injEq] at h
    subst h
    rfl
  | succ fuel =>
    unfold parseURLF at h
    split at h
    · simp only [Except.error.injEq] at h
      subst h
      rfl
    · exact wrapParse_error_isParse _ e h

theorem parseErrOnly_isParse (url : String) (e : URLErr)
    (h : parseErrOnly url = some e) : e.isParse = true := by
  unfold parseErrOnly at h
  split at h
  · rename_i e' he
    simp only [Option.some.injEq] at h
    subst h
    exact parseURLF_error_isParse _ url e' he
  · simp at h

theorem pyCharLower_eq_colon_iff (c : Char) : pyCharLower c = ':' ↔ c = ':' := by
  constructor
  · intro h
    unfold pyCharLower at h
    split at h
    · exfalso
      rename_i hc
      have h1 : 65 ≤ c.toNat := hc.1
      have h2 : c.toNat ≤ 90 := hc.2
      have hv : (c.toNat + 32).isValidChar := by
        left
        omega
      have key : (Char.ofNat (c.toNat + 32)).toNat = c.toNat + 32 := by
        simp only [Char.ofNat]
        rw [dif_pos hv]
        rfl
      rw [h] at key
      have hcol : (':' : Char).toNat = 58 := rfl
      omega
    · exact h
  · intro h
    subst h
    rfl

theorem startsWithColon_pyStrLower (s : String) :
    startsWithColon (pyStrLower s) = startsWithColon s := by
  unfold startsWithColon pyStrLower
  cases hd : s.data with
  | nil => rfl
  | cons c rest =>
    simp only [List.map_cons]
    rw [decide_eq_decide]
    exact pyCharLower_eq_colon_iff c

/-! ## Claim theorems: URL parsing and HTTP transports -/

/-- A canned 200 response with `Content-Length: 5` and extra bytes after
the body. -/
def resp200 : List Char := ("HTTP/1.1 200 OK\r\nContent-Length: 5\r\n\r\nhelloEXTRA").data

/-- A canned 404 response. -/
def resp404 : List Char := ("HTTP/1.1 404 Not Found\r\nContent-Length: 3\r\n\r\nabc").data

/-- C5: for a response processed by `_request_http`: when the parsed
`content-length` is `some n`, the body is exactly the next `n` bytes of
the stream (of length `n` when enough bytes are available) and, when no
`Connection: close` header was seen, the socket goes back to the pool
under the same `(host, port, scheme)` key; when `content-length` is
absent, the body is read to EOF and the socket is closed, never
pooled. -/
theorem http_body_framing (host scheme version statusStr explanation : String)
    (port : Nat) (stream : List Char) (code : Nat)
    (acc : HeaderAcc) (rest2 : List Char) (n : Nat)
    (h2 : parseStatusLine (readLineCRLF stream).1 = .ok (version, statusStr, code, explanation))
    (h3 : code < 500)
    (h4 : parseHeaders ((readLineCRLF stream).2.length + 1) (readLineCRLF stream).2
            ⟨[], none, false⟩ = some (acc, rest2)) :
    (acc.contentLength = some n →
      (processResponse host port scheme stream).toOption.map (fun r => (r.1.body, r.2)) =
        some (String.mk (rest2.take n),
          if acc.connectionClose then ConnAction.closeSock
          else ConnAction.poolSock (host, port, scheme))
      ∧ (n ≤ rest2.length → (String.mk (rest2.take n)).length = n))
    ∧ (acc.contentLength = none →
      (processResponse host port scheme stream).toOption.map (fun r => (r.1.body, r.2)) =
        some (String.mk rest2, ConnAction.closeSock)) := by
  constructor
  · intro hcl
    constructor
    · unfold processResponse
      simp only
      rw [h2]
      simp only
      rw [if_neg (by omega : ¬ 500 ≤ code), h4]
      simp only [hcl, Except.toOption, Option.map]
    · intro hle
      show (rest2.take n).length = n
      simp only [List.length_take]
      omega
  · intro hcl
    unfold processResponse
    simp only
    rw [h2]
    simp only
    rw [if_neg (by omega : ¬ 500 ≤ code), h4]
    simp [hcl, Except.toOption, Option.map]

theorem http_body_framing_witness :
    (processResponse "example.com" 80 "http" resp200).toOption.map (fun r => (r.1.body, r.2)) =
      some ("hello", ConnAction.poolSock ("example.com", 80, "http")) := by
  have h := (http_body_framing "example.com" "http" "HTTP/1.1" "200" "OK\r\n" 80 resp200 200
    ⟨[("content-length", "5")], some 5, false⟩ ("helloEXTRA").data 5
    (by decide) (by decide) (by decide)).1 (by decide)
  exact h.1

/-- C6: for a response whose status line parses with numeric code at
least 400, processing raises a typed request error exactly when the code
is at least 500; for codes in [400, 500) the transport does not abort:
the body is still processed and returned with the warning flag set. -/
theorem http_status_handling (host scheme version statusStr explanation : String)
    (port : Nat) (stream : List Char) (code : Nat) (acc : HeaderAcc) (rest2 : List Char)
    (h2 : parseStatusLine (readLineCRLF stream).1 = .ok (version, statusStr, code, explanation))
    (h400 : 400 ≤ code)
    (h4 : parseHeaders ((readLineCRLF stream).2.length + 1) (readLineCRLF stream).2
            ⟨[], none, false⟩ = some (acc, rest2)) :
    ((∃ e, processResponse host port scheme stream = .error e) ↔ 500 ≤ code)
    ∧ (code < 500 →
        (processResponse host port scheme stream).toOption.map
            (fun r => (r.1.warned, r.1.statusCode)) = some (true, code))
    ∧ (500 ≤ code →
        processResponse host port scheme stream =
          .error (.urlRequestError ("HTTP Error " ++ statusStr ++ ": " ++ pyStrip explanation))) := by
  have hsucc : code < 500 →
      (processResponse host port scheme stream).toOption.map
          (fun r => (r.1.warned, r.1.statusCode)) = some (true, code) := by
    intro hlt
    unfold processResponse
    simp only
    rw [h2]
    simp only
    rw [if_neg (by omega : ¬ 500 ≤ code), h4]
    simp only [Except.toOption, Option.map, decide_eq_true h400]
  have hfail : 500 ≤ code →
      processResponse host port scheme stream =
        .error (.urlRequestError ("HTTP Error " ++ statusStr ++ ": " ++ pyStrip explanation)) := by
    intro h500
    unfold processResponse
    simp only
    rw [h2]
    simp only
    rw [if_pos h500]
  refine ⟨⟨?_, ?_⟩, hsucc, hfail⟩
  · rintro ⟨e, he⟩
    by_contra hlt
    have := hsucc (by omega)
    rw [he] at this
    simp [Except.toOption] at this
  · intro h500
    exact ⟨_, hfail h500⟩

theorem http_status_handling_witness :
    (processResponse "example.com" 80 "http" resp404).toOption.map
        (fun r => (r.1.warned, r.1.statusCode)) = some (true, 404) :=
  (http_status_handling "example.com" "http" "HTTP/1.1" "404" "Not Found\r\n" 80 resp404 404
    ⟨[("content-length", "3")], some 3, false⟩ ("abc").data
    (by decide) (by decide) (by decide)).2.1 (by decide)

/-- C7 counterexample: three different parse-failure causes — unsupported
scheme, out-of-range port, too-short URL — all surface as the same single
error class `URLParseError` (there are no `InvalidScheme` / `InvalidPort`
/ `InvalidFormat` types in the code), so a caller cannot branch on the
cause by error type alone. -/
theorem url_parse_error_not_distinct :
    (parseErrOnly "ftp://x").map URLErr.isParse = some true
    ∧ (parseErrOnly "http://h:99999").map URLErr.isParse = some true
    ∧ (parseErrOnly "ab").map URLErr.isParse = some true
    ∧ (parseErrOnly "ftp://x").map URLErr.isParse =
        (parseErrOnly "http://h:99999").map URLErr.isParse := by
  decide

/-- C7 (amended): every malformed URL input — malformed scheme, missing
host, out-of-range port, too-short URL — raises the one parse-error type
`URLParseError` (as opposed to `URLRequestError`), with a cause-specific
message; no per-cause error types exist, so callers distinguish causes by
message only. -/
theorem url_parse_error_one_type :
    (∀ url e, parseErrOnly url = some e → e.isParse = true)
    ∧ parseErrMsg "ftp://x" = some "Failed to parse URL: Unsupported scheme: ftp"
    ∧ parseErrMsg "http://h:99999" = some "Failed to parse URL: Invalid port number: 99999"
    ∧ parseErrMsg "ab" = some "URL too short"
    ∧ parseErrMsg "relative/path" = some "Failed to parse URL: Invalid URL format: missing scheme" := by
  refine ⟨parseErrOnly_isParse, ?_, ?_, ?_, ?_⟩ <;> decide

theorem url_parse_error_one_type_witness :
    URLErr.isParse (URLErr.urlParseError "Failed to parse URL: Unsupported scheme: ftp") = true :=
  (url_parse_error_one_type).1 "ftp://x"
    (URLErr.urlParseError "Failed to parse URL: Unsupported scheme: ftp") (by decide)

/-- C8: the concrete URL parse table: `http://example.com` →
(http, example.com, 80, /); `https://example.com:8443/x` → port 8443,
path /x; `view-source:https://a.com` → scheme view-source with inner
scheme https; `ftp://x` → parse error; `C:\path\file.html` → scheme
file. -/
theorem url_parse_table :
    (parseScheme "http://example.com" = some "http"
      ∧ parseHost "http://example.com" = some "example.com"
      ∧ parsePort "http://example.com" = some 80
      ∧ parsePath "http://example.com" = some "/")
    ∧ (parsePort "https://example.com:8443/x" = some 8443
      ∧ parsePath "https://example.com:8443/x" = some "/x")
    ∧ (parseScheme "view-source:https://a.com" = some "view-source"
      ∧ parseInnerScheme "view-source:https://a.com" = some "https")
    ∧ parseErrMsg "ftp://x" = some "Failed to parse URL: Unsupported scheme: ftp"
    ∧ parseScheme "C:\\path\\file.html" = some "file" := by
  decide

/-- C9: every header in the list handed to the HTTP/2 codec whose name
starts with `:` is one of the four pseudo-headers built by the transport
itself (`:method`, `:path`, `:authority`, `:scheme`); caller-supplied
headers starting with `:` are dropped. -/
theorem http2_pseudo_header_stripping (host method path : String)
    (headers : List (String × String)) (k v : String)
    (hmem : (k, v) ∈ sendRequestHeaders host method path headers)
    (hcolon : startsWithColon k = true) :
    (k, v) ∈ ([(":method", pyStrUpper method), (":path", path),
               (":authority", host), (":scheme", "https")] : List (String × String)) := by
  unfold sendRequestHeaders at hmem
  rw [List.mem_append] at hmem
  cases hmem with
  | inl h => exact h
  | inr h =>
    exfalso
    obtain ⟨kv, hkv, heq⟩ := List.mem_map.1 h
    have hkeep := (List.mem_filter.1 hkv).2
    have hnc : startsWithColon kv.1 = false := by
      cases hb : startsWithColon kv.1 with
      | false => rfl
      | true => exact absurd hb (of_decide_eq_true hkeep)
    have hk : pyStrLower kv.1 = k := congrArg Prod.fst heq
    rw [← hk, startsWithColon_pyStrLower, hnc] at hcolon
    exact Bool.false_ne_true hcolon

theorem http2_pseudo_header_stripping_witness :
    ((":method", pyStrUpper "get") : String × String) ∈
      ([(":method", pyStrUpper "get"), (":path", "/"),
        (":authority", "h"), (":scheme", "https")] : List (String × String)) :=
  http2_pseudo_header_stripping "h" "get" "/" [(":evil", "x")] ":method" (pyStrUpper "get")
    (by decide) (by decide)

end Riva
